import Mathlib

/-!
Shallow embedding of `hacks/computed_parameters.ipynb`.

The notebook contains two pieces of logic:

* `SpectralNormWeight`, a module whose `forward` runs power iteration on a
  stored matrix `weight_mat` with buffered vectors `u`, `v` and returns the
  matrix scaled by the spectral-norm estimate `sigma`;
* `ComputedParameter`, a wrapper around a zero-argument module `m` that keeps
  a cached value, a staleness flag `needs_update`, and a snapshot
  `param_versions` of the watched parameters' `_version` counters, plus the
  `__torch_function__` dispatch, the `get_proxy` method-patching loop and the
  `replace_setattr` monkey-patch of `torch.nn.Module.__setattr__`.

Tensors handled through `ComputedParameter` are modelled by their values
(`Int`); the watched parameters of the wrapped module (`self.parameters()`)
are modelled by a list of values plus a list of `_version` mutation counters,
mirroring PyTorch's in-place version counting.  The field `mCalls` is ghost
instrumentation counting how often the wrapped computation `m` has been
invoked; it corresponds to no source attribute and exists only so that
"`m` is (not) re-invoked" can be stated.  The spectral-norm part is modelled
over `ℝ` (the float arithmetic of the source is idealised as real
arithmetic).
-/

/-- State of a `ComputedParameter` instance (source: `ComputedParameter.__init__`,
which sets `needs_update = True`, `cache = None`, `param_versions = None`),
together with the watched-parameter environment of the wrapped module
(`self.parameters()`): their current values and `_version` counters.
`cacheHooked` records whether `require_update` has been registered as a
gradient hook on the cached tensor; `mCalls` is the ghost invocation counter
for `m`. -/
structure CPState where
  paramVals : List Int
  paramVersions : List Nat
  needs_update : Bool
  cache : Option Int
  cacheHooked : Bool
  param_versions : Option (List Nat)
  mCalls : Nat
deriving DecidableEq

/-- Source `ComputedParameter.__init__`: fresh wrapper state over the given
watched-parameter environment. -/
def ComputedParameter.init (paramVals : List Int) (paramVersions : List Nat) : CPState :=
  { paramVals := paramVals,
    paramVersions := paramVersions,
    needs_update := true,
    cache := none,
    cacheHooked := false,
    param_versions := none,
    mCalls := 0 }

/-- Source `ComputedParameter.require_update` (the dummy `*args` used for the
hook are irrelevant and omitted): sets `self.needs_update = True`. -/
def ComputedParameter.require_update (s : CPState) : CPState :=
  { s with needs_update := true }

/-- Source `ComputedParameter.check_param_versions`: if `param_versions` is
`None`, require an update; otherwise require an update as soon as some watched
parameter's `_version` differs from the recorded one (`zip` truncates exactly
as Python's `zip` does). -/
def ComputedParameter.check_param_versions (s : CPState) : CPState :=
  match s.param_versions with
  | none => ComputedParameter.require_update s
  | some vs =>
      if (s.paramVersions.zip vs).any (fun pv => decide (pv.1 ≠ pv.2)) then
        ComputedParameter.require_update s
      else s

/-- Source `ComputedParameter.tensor`: when `needs_update` is set, recompute
`self.cache = self.m()`, register the gradient hook on the fresh cache and
record the watched parameters' version counters; otherwise return the cache
as is.  The source never resets `needs_update` to `False` anywhere, which the
embedding reproduces. -/
def ComputedParameter.tensor (m : List Int → Int) (s : CPState) : Option Int × CPState :=
  if s.needs_update then
    (some (m s.paramVals),
      { s with
        cache := some (m s.paramVals),
        cacheHooked := true,
        param_versions := some s.paramVersions,
        mCalls := s.mCalls + 1 })
  else (s.cache, s)

/-- An in-place mutation of watched parameter `i` (e.g. by `optimizer.step()`):
the value changes and PyTorch bumps the parameter's `_version` counter. -/
def mutateParam (i : Nat) (z : Int) (s : CPState) : CPState :=
  { s with
    paramVals := s.paramVals.set i z,
    paramVersions := s.paramVersions.set i (s.paramVersions.getD i 0 + 1) }

/-- A backward pass through the cached tensor: autograd fires the hooks
registered on it, which is `require_update` exactly when
`ComputedParameter.tensor` has hooked the cache. -/
def backwardCache (s : CPState) : CPState :=
  if s.cacheHooked then ComputedParameter.require_update s else s

/-- A positional argument of an intercepted torch function: either a
`ComputedParameter` (carrying its wrapped computation and state) or any other
value, modelled by the tensor value it stands for. -/
inductive TArg where
  | cp : (List Int → Int) → CPState → TArg
  | plain : Int → TArg

/-- Whether a positional argument `isinstance`-checks as `ComputedParameter`. -/
def isCPArg : TArg → Bool
  | TArg.cp _ _ => true
  | TArg.plain _ => false

/-- One positional argument after `a.tensor() if isinstance(a, ComputedParameter)
else a`.  Only the value returned by `tensor()` matters to the intercepted
call; the state effect of `tensor()` on the wrapper itself is dropped here
(it is studied separately on `ComputedParameter.tensor`). -/
def convertArg : TArg → TArg
  | TArg.cp m s => TArg.plain (((ComputedParameter.tensor m s).1).getD 0)
  | TArg.plain t => TArg.plain t

/-- Source `ComputedParameter.__torch_function__`: default the keyword
arguments to `{}` when `None`, convert the positional arguments, and call
`func` on the results; keyword arguments are passed through unchanged. -/
def ComputedParameter.torch_function
    (func : List TArg → List (String × TArg) → Int)
    (args : List TArg) (kwargs : Option (List (String × TArg))) : Int :=
  func (args.map convertArg) (kwargs.getD [])

/-- Source `get_proxy(name)`: the synthesized method forwards to
`getattr(self.tensor(), name)(*args, **kwargs)`.  `sem` interprets a tensor
method name on a tensor value and positional arguments; the pair returned is
the call's result together with the wrapper state `tensor()` leaves behind. -/
def get_proxy (sem : String → Int → List Int → Int) (name : String)
    (m : List Int → Int) (s : CPState) (args : List Int) : Int × CPState :=
  (sem name (((ComputedParameter.tensor m s).1).getD 0) args,
   (ComputedParameter.tensor m s).2)

/-- A Python value sitting in a module attribute, as far as the patched
`__setattr__` discriminates values: `None`, a `torch.nn.Parameter`, a
`ComputedParameter`, or anything else (in particular the default `1` that
`getattr(self, n, 1)` returns for a missing attribute). -/
inductive PyVal where
  | pynone : PyVal
  | param : Nat → PyVal
  | computedParam : Nat → PyVal
  | intVal : Int → PyVal
deriving DecidableEq

/-- `isinstance(v, ComputedParameter)`. -/
def isCP : PyVal → Bool
  | PyVal.computedParam _ => true
  | _ => false

/-- `isinstance(v, torch.nn.Parameter)`. -/
def isParam : PyVal → Bool
  | PyVal.param _ => true
  | _ => false

/-- A module's attribute dictionary. -/
structure PyModule where
  attrs : List (String × PyVal)
deriving DecidableEq

/-- `getattr(self, n, d)`. -/
def getattrD (mo : PyModule) (n : String) (d : PyVal) : PyVal :=
  (mo.attrs.lookup n).getD d

/-- `delattr(self, n)`. -/
def delattr (mo : PyModule) (n : String) : PyModule :=
  { attrs := mo.attrs.filter (fun p => decide (p.1 ≠ n)) }

/-- The original `torch.nn.Module.__setattr__`, at the level of the attribute
dictionary: bind `n` to `v`. -/
def old_setattr (mo : PyModule) (n : String) (v : PyVal) : PyModule :=
  { attrs := (n, v) :: mo.attrs.filter (fun p => decide (p.1 ≠ n)) }

/-- Source `new_setattr`, installed process-wide by `replace_setattr()`:
read `oldval = getattr(self, n, 1)`; by Python operator precedence (`and`
binds tighter than `or`) the guard of the source line
`if isinstance(v, ComputedParameter) and oldval is None or isinstance(oldval,
torch.nn.Parameter):` groups as
`(isinstance(v, ComputedParameter) and oldval is None) or
isinstance(oldval, torch.nn.Parameter)`; when it holds, `delattr(self, n)`
runs first, and in every case the original `__setattr__` is then performed.
The boolean result records whether the `delattr` branch was taken. -/
def new_setattr (mo : PyModule) (n : String) (v : PyVal) : PyModule × Bool :=
  let oldval := getattrD mo n (PyVal.intVal 1)
  if (isCP v = true ∧ oldval = PyVal.pynone) ∨ isParam oldval = true then
    (old_setattr (delattr mo n) n v, true)
  else (old_setattr mo n v, false)

/-- Kind of a member of `torch.Tensor` as seen by the patching loop: a method
descriptor (C-implemented method, for which `inspect.ismethoddescriptor`
returns `True`), a Python-level function (for which it returns `False`, e.g.
`torch.Tensor.backward`), or any other member (properties, data attributes). -/
inductive MemberKind where
  | methodDescriptor : MemberKind
  | pyFunction : MemberKind
  | otherMember : MemberKind
deriving DecidableEq

/-- The reflection environment the class-patching loop runs in: the members of
`torch.Tensor` (as `inspect.getmembers` lists them, with their kind) and the
names for which `hasattr(ComputedParameter, name)` already holds before the
loop (the class body of `ComputedParameter` plus everything inherited from
`torch.nn.Module` and `object`). -/
structure ClassEnv where
  tensorMembers : List (String × MemberKind)
  cpExistingAttrs : List String

/-- The names `ComputedParameter` defines in its own class body in the source. -/
def cpClassBodyAttrs : List String :=
  ["__init__", "require_update", "check_param_versions", "tensor",
   "__torch_function__", "__hash__", "__eq__"]

/-- The names the patching loop adds a proxy for (source: the
`inspect.getmembers(torch.Tensor)` loop): members that are method descriptors
and not already attributes of `ComputedParameter`. -/
def proxiedNames (env : ClassEnv) : List String :=
  (env.tensorMembers.filter
      (fun p => decide (¬ p.1 ∈ env.cpExistingAttrs)
        && decide (p.2 = MemberKind.methodDescriptor))).map Prod.fst

/-- How a method call on a `ComputedParameter` dispatches after the patching
loop: an attribute the class already had wins (Python attribute lookup finds
it, and the loop skipped the name via `hasattr`), otherwise a patched proxy
runs `getattr(self.tensor(), name)(...)`, otherwise the lookup raises
`AttributeError`. -/
inductive Dispatch where
  | existingAttr : String → Dispatch
  | proxyToTensor : String → Dispatch
  | attributeError : String → Dispatch
deriving DecidableEq

/-- Method dispatch on `ComputedParameter` after the patching loop ran in
environment `env`. -/
def invokeCP (env : ClassEnv) (n : String) : Dispatch :=
  if n ∈ env.cpExistingAttrs then Dispatch.existingAttr n
  else if n ∈ proxiedNames env then Dispatch.proxyToTensor n
  else Dispatch.attributeError n

/-- Modelled from the spec: "proxying every tensor method onto a
lazily-recomputed cached value" — the claim (C6) that invoking any
`torch.Tensor` method on a `ComputedParameter` behaves as the same method on
`self.tensor()`, i.e. every such name dispatches to the tensor proxy. -/
def specInvoke (n : String) : Dispatch := Dispatch.proxyToTensor n

/-- A concrete fragment of the real reflection environment.  In the PyTorch
the notebook targets, `Tensor.add`, `Tensor.mul` and `Tensor.__eq__` are
C-implemented method descriptors, while `Tensor.backward` is a Python-level
function defined in `torch/tensor.py` (so `inspect.ismethoddescriptor` is
`False` for it).  `ComputedParameter` already has its own class-body names
(in particular `__eq__`, defined in the source with a
`super().eq(other)` branch for `Module` arguments that plain `Tensor.__eq__`
does not have) and inherits `forward`, `train`, `to`, `parameters`, ... from
`torch.nn.Module`, which has no `backward` attribute. -/
def torchEnv0 : ClassEnv :=
  { tensorMembers :=
      [("add", MemberKind.methodDescriptor),
       ("mul", MemberKind.methodDescriptor),
       ("__eq__", MemberKind.methodDescriptor),
       ("backward", MemberKind.pyFunction)],
    cpExistingAttrs :=
      cpClassBodyAttrs ++ ["forward", "train", "to", "parameters", "state_dict"] }

/-- `torch.nn.functional.normalize(x, dim=0, eps=eps)` on a one-dimensional
tensor: `x / max(norm2(x), eps)`. -/
noncomputable def torchNormalize {n : Nat} (eps : ℝ) (x : Fin n → ℝ) : Fin n → ℝ :=
  fun i => x i / max (Real.sqrt (∑ j, x j ^ 2)) eps

/-- The power-iteration loop body of `SpectralNormWeight.forward`, iterated
`k` times on the pair `(u, v)`: first
`v = normalize(mv(weight_mat.t(), u), dim=0, eps=eps)`, then
`u = normalize(mv(weight_mat, v), dim=0, eps=eps)` with the fresh `v`.  The
`clone(memory_format=...)` calls in the source preserve the values, so they do
not appear here. -/
noncomputable def snIterates {h w : Nat} (A : Matrix (Fin h) (Fin w) ℝ) (eps : ℝ) :
    Nat → ((Fin h → ℝ) × (Fin w → ℝ)) → ((Fin h → ℝ) × (Fin w → ℝ))
  | 0, uv => uv
  | k + 1, uv =>
      let v := torchNormalize eps (Matrix.mulVec A.transpose uv.1)
      let u := torchNormalize eps (Matrix.mulVec A v)
      snIterates A eps k (u, v)

/-- State of a `SpectralNormWeight` module (source `SpectralNormWeight.__init__`):
the trainable `h × w` matrix `weight_mat` (the source builds `h`, `w` from
`shape` and `dim`), the registered buffers `u` and `v`, the configuration
`n_power_iterations` and `eps`, and the `nn.Module` training flag.  The
`dim`/`shape`/`permuted_shape` bookkeeping and the final `view`/`transpose`
only relayout the entries of the returned weight and are not modelled: the
result is kept as the `h × w` matrix of entries. -/
structure SNState (h w : Nat) where
  weight_mat : Matrix (Fin h) (Fin w) ℝ
  u : Fin h → ℝ
  v : Fin w → ℝ
  training : Bool
  n_power_iterations : Nat
  eps : ℝ

/-- Source `SpectralNormWeight.forward`.  In training mode the loop performs
`n_power_iterations` power-iteration steps.  Buffer effect: on the first pass
the results are written into the buffers `self.v` / `self.u` through `out=`
(the local names still alias the buffers there); immediately afterwards
`u = u.clone(...)` and `v = v.clone(...)` rebind the locals to fresh tensors,
so every later pass writes into the clones and the buffers keep the first
pass's values.  `sigma = torch.dot(u, torch.mv(self.weight_mat, v))` uses the
final loop variables, and the returned weight is `self.weight_mat / sigma`
entrywise. -/
noncomputable def SpectralNormWeight.forward {h w : Nat} (s : SNState h w) :
    Matrix (Fin h) (Fin w) ℝ × SNState h w :=
  let uv :=
    if s.training then snIterates s.weight_mat s.eps s.n_power_iterations (s.u, s.v)
    else (s.u, s.v)
  let buf :=
    if s.training then
      if 1 ≤ s.n_power_iterations then snIterates s.weight_mat s.eps 1 (s.u, s.v)
      else (s.u, s.v)
    else (s.u, s.v)
  let sigma := Matrix.dotProduct uv.1 (Matrix.mulVec s.weight_mat uv.2)
  ((fun i j => s.weight_mat i j / sigma), { s with u := buf.1, v := buf.2 })

/-- The constant `1 × 1` matrix with entry `1/2`, used as a concrete
`weight_mat`. -/
noncomputable def Whalf : Matrix (Fin 1) (Fin 1) ℝ := fun _ _ => 1 / 2

/-- Concrete `SpectralNormWeight` state in training mode with two power
iterations, used to separate the buffered vectors from the final iterates:
with `eps = 1` every normalization below is the eps-guard branch
(`max(norm, eps) = eps`), so the iterates stay exactly computable. -/
noncomputable def sCtr : SNState 1 1 :=
  { weight_mat := Whalf,
    u := fun _ => 1,
    v := fun _ => 0,
    training := true,
    n_power_iterations := 2,
    eps := 1 }

/-- Concrete `SpectralNormWeight` state in evaluation mode. -/
noncomputable def sEvalW : SNState 1 1 :=
  { weight_mat := Whalf,
    u := fun _ => 1,
    v := fun _ => 0,
    training := false,
    n_power_iterations := 1,
    eps := 1 }

/-- Concrete `SpectralNormWeight` state in training mode with the default
single power iteration. -/
noncomputable def sTrainW : SNState 1 1 :=
  { weight_mat := Whalf,
    u := fun _ => 1,
    v := fun _ => 0,
    training := true,
    n_power_iterations := 1,
    eps := 1 }

/-- Auxiliary: reading back the entry just written by `List.set`. -/
theorem list_getD_set_self (l : List Nat) (i : Nat) (a : Nat) (hi : i < l.length) :
    (l.set i a).getD i 0 = a := by
  induction l generalizing i with
  | nil => simp at hi
  | cons x xs ih =>
      cases i with
      | zero => simp
      | succ j => simpa using ih j (by simpa using hi)

/-- Auxiliary: `check_param_versions` never clears the staleness flag. -/
theorem check_param_versions_keeps_flag (s : CPState) (h : s.needs_update = true) :
    (ComputedParameter.check_param_versions s).needs_update = true := by
  cases hpv : s.param_versions with
  | none =>
      simp [ComputedParameter.check_param_versions, hpv, ComputedParameter.require_update]
  | some vs =>
      simp only [ComputedParameter.check_param_versions, hpv]
      split
      · simp [ComputedParameter.require_update]
      · exact h

/-- C1: the claim states that, after `tensor()` has computed a value and while
no invalidation trigger fired, a further `tensor()` call returns the cache
without re-invoking `m`.  The code violates this: `tensor()` never resets
`needs_update` to `False` (and `check_param_versions` is never called), so on
a fresh wrapper two consecutive `tensor()` calls with no parameter mutation
and no backward pass in between invoke `m` twice — the evaluation below shows
`needs_update` still set after the first call and the invocation counter
reaching `2` on the second call. -/
theorem c1_cache_never_hit :
    ((ComputedParameter.tensor (fun _ => 7) (ComputedParameter.init [0] [0])).2.needs_update
      = true)
    ∧ ((ComputedParameter.tensor (fun _ => 7) (ComputedParameter.init [0] [0])).2.mCalls = 1)
    ∧ ((ComputedParameter.tensor (fun _ => 7)
        ((ComputedParameter.tensor (fun _ => 7) (ComputedParameter.init [0] [0])).2)).2.mCalls
      = 2) := by
  decide

/-- C2: after a computation, mutating a watched parameter (which bumps its
`_version` counter) leaves the wrapper invalidated — `check_param_versions`
reports a needed update — and the next `tensor()` call re-invokes `m` and
returns the freshly computed value of the current parameters, not the stale
cache. -/
theorem c2_version_change_recompute (m : List Int → Int) (s0 : CPState) (i : Nat) (z : Int)
    (hup : s0.needs_update = true) (hi : i < s0.paramVersions.length) :
    (mutateParam i z (ComputedParameter.tensor m s0).2).paramVersions ≠
        (ComputedParameter.tensor m s0).2.paramVersions
    ∧ (ComputedParameter.check_param_versions
        (mutateParam i z (ComputedParameter.tensor m s0).2)).needs_update = true
    ∧ (ComputedParameter.tensor m (mutateParam i z (ComputedParameter.tensor m s0).2)).2.mCalls
        = (mutateParam i z (ComputedParameter.tensor m s0).2).mCalls + 1
    ∧ (ComputedParameter.tensor m (mutateParam i z (ComputedParameter.tensor m s0).2)).1
        = some (m (mutateParam i z (ComputedParameter.tensor m s0).2).paramVals) := by
  have h1 : (ComputedParameter.tensor m s0).2 = { s0 with
      cache := some (m s0.paramVals),
      cacheHooked := true,
      param_versions := some s0.paramVersions,
      mCalls := s0.mCalls + 1 } := by
    simp [ComputedParameter.tensor, hup]
  refine ⟨?_, ?_, ?_, ?_⟩
  · intro heq
    have h2 := congrArg (fun l => l.getD i 0) heq
    simp only [h1, mutateParam] at h2
    rw [list_getD_set_self _ _ _ hi] at h2
    omega
  · exact check_param_versions_keeps_flag _ (by simp [h1, mutateParam, hup])
  · simp [ComputedParameter.tensor, h1, mutateParam, hup]
  · simp [ComputedParameter.tensor, h1, mutateParam, hup]

/-- Witness for `c2_version_change_recompute` at a concrete input. -/
theorem c2_version_change_recompute_witness :
    (ComputedParameter.init [5] [0]).needs_update = true
    ∧ 0 < (ComputedParameter.init [5] [0]).paramVersions.length
    ∧ ((mutateParam 0 3 (ComputedParameter.tensor (fun l => l.headD 0)
          (ComputedParameter.init [5] [0])).2).paramVersions ≠
        (ComputedParameter.tensor (fun l => l.headD 0)
          (ComputedParameter.init [5] [0])).2.paramVersions
      ∧ (ComputedParameter.check_param_versions
          (mutateParam 0 3 (ComputedParameter.tensor (fun l => l.headD 0)
            (ComputedParameter.init [5] [0])).2)).needs_update = true
      ∧ (ComputedParameter.tensor (fun l => l.headD 0)
          (mutateParam 0 3 (ComputedParameter.tensor (fun l => l.headD 0)
            (ComputedParameter.init [5] [0])).2)).2.mCalls
          = (mutateParam 0 3 (ComputedParameter.tensor (fun l => l.headD 0)
            (ComputedParameter.init [5] [0])).2).mCalls + 1
      ∧ (ComputedParameter.tensor (fun l => l.headD 0)
          (mutateParam 0 3 (ComputedParameter.tensor (fun l => l.headD 0)
            (ComputedParameter.init [5] [0])).2)).1
          = some ((fun l => l.headD 0) (mutateParam 0 3 (ComputedParameter.tensor
            (fun l => l.headD 0) (ComputedParameter.init [5] [0])).2).paramVals)) :=
  ⟨rfl, by decide,
    c2_version_change_recompute (fun l => l.headD 0) (ComputedParameter.init [5] [0]) 0 3
      rfl (by decide)⟩

/-- C3: a computing `tensor()` call registers the `require_update` gradient
hook on the cache; a backward pass through the cached value then fires the
hook and sets `needs_update`, so the next `tensor()` call invokes `m` again
and returns a freshly computed value. -/
theorem c3_backward_hook_invalidates (m : List Int → Int) (s : CPState)
    (hup : s.needs_update = true) :
    ((ComputedParameter.tensor m s).2.cacheHooked = true)
    ∧ ((backwardCache (ComputedParameter.tensor m s).2).needs_update = true)
    ∧ ((ComputedParameter.tensor m
        (backwardCache (ComputedParameter.tensor m s).2)).2.mCalls
      = (ComputedParameter.tensor m s).2.mCalls + 1)
    ∧ ((ComputedParameter.tensor m
        (backwardCache (ComputedParameter.tensor m s).2)).1
      = some (m s.paramVals)) := by
  have h1 : (ComputedParameter.tensor m s).2 = { s with
      cache := some (m s.paramVals),
      cacheHooked := true,
      param_versions := some s.paramVersions,
      mCalls := s.mCalls + 1 } := by
    simp [ComputedParameter.tensor, hup]
  have h2 : backwardCache (ComputedParameter.tensor m s).2 = { s with
      cache := some (m s.paramVals),
      cacheHooked := true,
      param_versions := some s.paramVersions,
      mCalls := s.mCalls + 1,
      needs_update := true } := by
    rw [h1]
    simp [backwardCache, ComputedParameter.require_update]
  refine ⟨by rw [h1], ?_, ?_, ?_⟩
  · rw [h2]
  · rw [h2, h1]
    simp [ComputedParameter.tensor]
  · rw [h2]
    simp [ComputedParameter.tensor]

/-- Witness for `c3_backward_hook_invalidates` at a concrete input. -/
theorem c3_backward_hook_invalidates_witness :
    (ComputedParameter.init [2] [0]).needs_update = true
    ∧ (((ComputedParameter.tensor (fun l => l.headD 0 + 1)
          (ComputedParameter.init [2] [0])).2.cacheHooked = true)
      ∧ ((backwardCache (ComputedParameter.tensor (fun l => l.headD 0 + 1)
          (ComputedParameter.init [2] [0])).2).needs_update = true)
      ∧ ((ComputedParameter.tensor (fun l => l.headD 0 + 1)
          (backwardCache (ComputedParameter.tensor (fun l => l.headD 0 + 1)
            (ComputedParameter.init [2] [0])).2)).2.mCalls
        = (ComputedParameter.tensor (fun l => l.headD 0 + 1)
            (ComputedParameter.init [2] [0])).2.mCalls + 1)
      ∧ ((ComputedParameter.tensor (fun l => l.headD 0 + 1)
          (backwardCache (ComputedParameter.tensor (fun l => l.headD 0 + 1)
            (ComputedParameter.init [2] [0])).2)).1
        = some ((fun l => l.headD 0 + 1) (ComputedParameter.init [2] [0]).paramVals))) :=
  ⟨rfl, c3_backward_hook_invalidates (fun l => l.headD 0 + 1)
    (ComputedParameter.init [2] [0]) rfl⟩

/-- C5 counterexample: the claim says an assignment whose value is not a
`ComputedParameter` never triggers the removal.  Assigning the plain value `5`
to an attribute currently holding a `torch.nn.Parameter` does trigger the
`delattr` branch (Python precedence groups the source guard as
`(isinstance(v, ComputedParameter) and oldval is None) or
isinstance(oldval, torch.nn.Parameter)`). -/
theorem c5_counterexample :
    (new_setattr { attrs := [("weight", PyVal.param 0)] } "weight" (PyVal.intVal 5)).2 = true
    ∧ isCP (PyVal.intVal 5) = false := by
  decide

/-- C5 (amended): after `replace_setattr()`, assignment deletes the existing
attribute exactly when either the assigned value is a `ComputedParameter` and
the current attribute value is `None`, or the current attribute value is a
`torch.nn.Parameter` (whatever the assigned value is); after any removal —
and in every case — the original `__setattr__` is performed. -/
theorem c5_amended_splice_condition (mo : PyModule) (n : String) (v : PyVal) :
    ((new_setattr mo n v).2 = true ↔
      ((isCP v = true ∧ getattrD mo n (PyVal.intVal 1) = PyVal.pynone)
        ∨ isParam (getattrD mo n (PyVal.intVal 1)) = true))
    ∧ (new_setattr mo n v).1 =
        (if (new_setattr mo n v).2 = true then old_setattr (delattr mo n) n v
         else old_setattr mo n v) := by
  by_cases hc : (isCP v = true ∧ getattrD mo n (PyVal.intVal 1) = PyVal.pynone)
      ∨ isParam (getattrD mo n (PyVal.intVal 1)) = true
  · simp [new_setattr, hc]
  · simp [new_setattr, hc]

/-- C7: `__torch_function__` returns exactly the result of calling `func`
with every `ComputedParameter` positional argument replaced by its `tensor()`
value and everything else (including the keyword arguments) unchanged, when at
least one positional argument is a `ComputedParameter`. -/
theorem c7_torch_function_homomorphism
    (func : List TArg → List (String × TArg) → Int)
    (args : List TArg) (kwargs : Option (List (String × TArg)))
    (_hcp : ∃ a ∈ args, isCPArg a = true) :
    ComputedParameter.torch_function func args kwargs =
      func (args.map convertArg) (kwargs.getD [])
    ∧ (∀ a ∈ args, isCPArg a = false → convertArg a = a)
    ∧ (∀ (m : List Int → Int) (s : CPState),
        convertArg (TArg.cp m s) =
          TArg.plain (((ComputedParameter.tensor m s).1).getD 0)) := by
  refine ⟨rfl, ?_, fun m s => rfl⟩
  intro a _ ha
  cases a with
  | cp m s => simp [isCPArg] at ha
  | plain t => rfl

/-- Witness for `c7_torch_function_homomorphism` at a concrete input. -/
theorem c7_torch_function_homomorphism_witness :
    (∃ a ∈ [TArg.cp (fun _ => 5) (ComputedParameter.init [] []), TArg.plain 3],
      isCPArg a = true)
    ∧ ComputedParameter.torch_function (fun as _ => as.length)
        [TArg.cp (fun _ => 5) (ComputedParameter.init [] []), TArg.plain 3] none =
      (fun as (_ : List (String × TArg)) => (as.length : Int))
        ([TArg.cp (fun _ => 5) (ComputedParameter.init [] []), TArg.plain 3].map convertArg)
        ((none : Option (List (String × TArg))).getD []) :=
  ⟨⟨TArg.cp (fun _ => 5) (ComputedParameter.init [] []),
      List.mem_cons_self _ _, rfl⟩,
    (c7_torch_function_homomorphism (fun as _ => as.length)
      [TArg.cp (fun _ => 5) (ComputedParameter.init [] []), TArg.plain 3] none
      ⟨TArg.cp (fun _ => 5) (ComputedParameter.init [] []),
        List.mem_cons_self _ _, rfl⟩).1⟩

/-- C10: keyword arguments are forwarded unconverted by `__torch_function__`:
`func` receives the keyword-argument list exactly as given, so an entry whose
value is a `ComputedParameter` stays a raw `ComputedParameter` there. -/
theorem c10_kwargs_not_converted
    (func : List TArg → List (String × TArg) → Int)
    (args : List TArg) (kwargs : List (String × TArg)) (k : String)
    (m : List Int → Int) (s : CPState)
    (hk : (k, TArg.cp m s) ∈ kwargs) :
    ComputedParameter.torch_function func args (some kwargs) =
      func (args.map convertArg) kwargs
    ∧ (k, TArg.cp m s) ∈ kwargs
    ∧ isCPArg (TArg.cp m s) = true :=
  ⟨rfl, hk, rfl⟩

/-- Witness for `c10_kwargs_not_converted` at a concrete input. -/
theorem c10_kwargs_not_converted_witness :
    ("out", TArg.cp (fun _ => 5) (ComputedParameter.init [] [])) ∈
      [("out", TArg.cp (fun _ => 5) (ComputedParameter.init [] []))]
    ∧ (ComputedParameter.torch_function (fun _ _ => 0) []
        (some [("out", TArg.cp (fun _ => 5) (ComputedParameter.init [] []))]) =
      (fun (_ : List TArg) (_ : List (String × TArg)) => (0 : Int))
        (([] : List TArg).map convertArg)
        [("out", TArg.cp (fun _ => 5) (ComputedParameter.init [] []))]) :=
  ⟨List.mem_cons_self _ _,
    (c10_kwargs_not_converted (fun _ _ => 0) []
      [("out", TArg.cp (fun _ => 5) (ComputedParameter.init [] []))] "out"
      (fun _ => 5) (ComputedParameter.init [] [])
      (List.mem_cons_self _ _)).1⟩

/-- C8 counterexample: the claim lists the persistent mutable state as exactly
the weight matrix, the two power-iteration vectors, the cached tensor value
and the staleness flag.  But `tensor()` also maintains `param_versions`, the
recorded snapshot of the watched parameters' version counters: a computing
call changes it. -/
theorem c8_counterexample :
    (ComputedParameter.tensor (fun _ => 7) (ComputedParameter.init [0] [0])).2.param_versions
      ≠ (ComputedParameter.init [0] [0]).param_versions := by
  decide

/-- C8 (amended): the persistent mutable state of the two components is the
weight matrix, the buffers `u` and `v`, the cached value, the staleness flag
`needs_update`, the hook registration on the cache, and in addition the
`param_versions` snapshot maintained by `tensor()`; nothing else persists:
the operations of `ComputedParameter` leave the watched-parameter environment
untouched, and `forward` leaves everything of `SpectralNormWeight` except the
buffers untouched. -/
theorem c8_amended_state_inventory (m : List Int → Int) (s : CPState)
    {h w : Nat} (t : SNState h w) :
    ((ComputedParameter.tensor m s).2.paramVals = s.paramVals
      ∧ (ComputedParameter.tensor m s).2.paramVersions = s.paramVersions
      ∧ (ComputedParameter.tensor m s).2.needs_update = s.needs_update)
    ∧ (ComputedParameter.require_update s = { s with needs_update := true })
    ∧ ((ComputedParameter.check_param_versions s).paramVals = s.paramVals
      ∧ (ComputedParameter.check_param_versions s).paramVersions = s.paramVersions
      ∧ (ComputedParameter.check_param_versions s).cache = s.cache
      ∧ (ComputedParameter.check_param_versions s).cacheHooked = s.cacheHooked
      ∧ (ComputedParameter.check_param_versions s).param_versions = s.param_versions
      ∧ (ComputedParameter.check_param_versions s).mCalls = s.mCalls)
    ∧ ((SpectralNormWeight.forward t).2.weight_mat = t.weight_mat
      ∧ (SpectralNormWeight.forward t).2.training = t.training
      ∧ (SpectralNormWeight.forward t).2.n_power_iterations = t.n_power_iterations
      ∧ (SpectralNormWeight.forward t).2.eps = t.eps) := by
  refine ⟨?_, rfl, ?_, rfl, rfl, rfl, rfl⟩
  · by_cases hu : s.needs_update <;> simp [ComputedParameter.tensor, hu]
  · cases hpv : s.param_versions with
    | none =>
        simp [ComputedParameter.check_param_versions, hpv,
          ComputedParameter.require_update]
    | some vs =>
        simp only [ComputedParameter.check_param_versions, hpv]
        split <;> simp [ComputedParameter.require_update, hpv]

/-- C6 counterexample: dispatch on `ComputedParameter` does not match the
claim that every `torch.Tensor` method behaves as the same method on
`tensor()`: `backward` is a Python-level function of `torch.Tensor` (not a
method descriptor), so the loop adds no proxy for it and the lookup fails
with `AttributeError`; and `__eq__` is already defined in the class body, so
the class's own method (which has a `super().eq(other)` branch for `Module`
arguments that `Tensor.__eq__` lacks) runs instead of the tensor proxy. -/
theorem c6_counterexample :
    invokeCP torchEnv0 "backward" = Dispatch.attributeError "backward"
    ∧ specInvoke "backward" = Dispatch.proxyToTensor "backward"
    ∧ invokeCP torchEnv0 "backward" ≠ specInvoke "backward"
    ∧ invokeCP torchEnv0 "__eq__" = Dispatch.existingAttr "__eq__"
    ∧ invokeCP torchEnv0 "__eq__" ≠ specInvoke "__eq__" := by
  decide

/-- C6 (amended): every member of `torch.Tensor` that is a method descriptor
and whose name is not already an attribute of `ComputedParameter` is made
available, and dispatches to the synthesized proxy, which invokes the same
method on `self.tensor()`; names already present on the class (its own body
and everything inherited from `torch.nn.Module`) keep the class's behaviour,
and members that are not method descriptors are not added. -/
theorem c6_amended_proxy_dispatch (env : ClassEnv) (n : String)
    (h1 : (n, MemberKind.methodDescriptor) ∈ env.tensorMembers)
    (h2 : n ∉ env.cpExistingAttrs) :
    invokeCP env n = Dispatch.proxyToTensor n
    ∧ (∀ (sem : String → Int → List Int → Int) (m : List Int → Int)
        (s : CPState) (args : List Int),
        get_proxy sem n m s args =
          (sem n (((ComputedParameter.tensor m s).1).getD 0) args,
           (ComputedParameter.tensor m s).2)) := by
  constructor
  · have hp : n ∈ proxiedNames env :=
      List.mem_map.mpr ⟨(n, MemberKind.methodDescriptor),
        List.mem_filter.mpr ⟨h1, by simp [h2]⟩, rfl⟩
    simp [invokeCP, h2, hp]
  · intro sem m s args
    rfl

/-- Witness for `c6_amended_proxy_dispatch` at a concrete input. -/
theorem c6_amended_proxy_dispatch_witness :
    ("add", MemberKind.methodDescriptor) ∈ torchEnv0.tensorMembers
    ∧ "add" ∉ torchEnv0.cpExistingAttrs
    ∧ invokeCP torchEnv0 "add" = Dispatch.proxyToTensor "add" :=
  ⟨by decide, by decide,
    (c6_amended_proxy_dispatch torchEnv0 "add" (by decide) (by decide)).1⟩

/-- C4: in training mode, every power-iteration step of `forward` first sets
`v` to the eps-guarded normalization of `weight_mat.t() @ u` and then sets `u`
to the eps-guarded normalization of `weight_mat @ v` with the fresh `v`, and
the returned weight is `weight_mat` scaled by
`sigma = dot(u, weight_mat @ v)` taken from the vectors the iteration ends
with. -/
theorem c4_forward_power_iteration {h w : Nat} (s : SNState h w)
    (htr : s.training = true) :
    (∀ (k : Nat) (uv : (Fin h → ℝ) × (Fin w → ℝ)),
        snIterates s.weight_mat s.eps (k + 1) uv =
          snIterates s.weight_mat s.eps k
            (torchNormalize s.eps (Matrix.mulVec s.weight_mat
              (torchNormalize s.eps (Matrix.mulVec s.weight_mat.transpose uv.1))),
             torchNormalize s.eps (Matrix.mulVec s.weight_mat.transpose uv.1)))
    ∧ (SpectralNormWeight.forward s).1 = fun i j =>
        s.weight_mat i j /
          Matrix.dotProduct
            (snIterates s.weight_mat s.eps s.n_power_iterations (s.u, s.v)).1
            (Matrix.mulVec s.weight_mat
              (snIterates s.weight_mat s.eps s.n_power_iterations (s.u, s.v)).2) := by
  constructor
  · intro k uv
    rfl
  · simp [SpectralNormWeight.forward, htr]

/-- Witness for `c4_forward_power_iteration` at a concrete input. -/
theorem c4_forward_power_iteration_witness :
    sTrainW.training = true
    ∧ (SpectralNormWeight.forward sTrainW).1 = fun i j =>
        sTrainW.weight_mat i j /
          Matrix.dotProduct
            (snIterates sTrainW.weight_mat sTrainW.eps sTrainW.n_power_iterations
              (sTrainW.u, sTrainW.v)).1
            (Matrix.mulVec sTrainW.weight_mat
              (snIterates sTrainW.weight_mat sTrainW.eps sTrainW.n_power_iterations
                (sTrainW.u, sTrainW.v)).2) :=
  ⟨rfl, (c4_forward_power_iteration sTrainW rfl).2⟩

/-- C9 (amended): out of training mode `forward` performs zero power-iteration
updates — the buffers `u`, `v` are returned unchanged and `sigma` is computed
from the stored vectors; in training mode (with at least one iteration) the
vectors produced by the first power-iteration step are written back into the
buffers through `out=` (later iterations operate on clones and are not
persisted; with the default `n_power_iterations = 1` the persisted vectors
are exactly the final updated ones). -/
theorem c9_amended_buffer_updates {h w : Nat} (s : SNState h w) :
    (s.training = false →
      (SpectralNormWeight.forward s).2.u = s.u
      ∧ (SpectralNormWeight.forward s).2.v = s.v
      ∧ (SpectralNormWeight.forward s).1 = fun i j =>
          s.weight_mat i j /
            Matrix.dotProduct s.u (Matrix.mulVec s.weight_mat s.v))
    ∧ (s.training = true → 1 ≤ s.n_power_iterations →
      (SpectralNormWeight.forward s).2.u
        = (snIterates s.weight_mat s.eps 1 (s.u, s.v)).1
      ∧ (SpectralNormWeight.forward s).2.v
        = (snIterates s.weight_mat s.eps 1 (s.u, s.v)).2) := by
  constructor
  · intro htr
    refine ⟨?_, ?_, ?_⟩ <;> simp [SpectralNormWeight.forward, htr]
  · intro htr hn
    constructor <;> simp [SpectralNormWeight.forward, htr, hn]

/-- Witness for `c9_amended_buffer_updates` at concrete inputs, one per
branch. -/
theorem c9_amended_buffer_updates_witness :
    sEvalW.training = false
    ∧ (SpectralNormWeight.forward sEvalW).2.u = sEvalW.u
    ∧ sTrainW.training = true
    ∧ 1 ≤ sTrainW.n_power_iterations
    ∧ (SpectralNormWeight.forward sTrainW).2.u
        = (snIterates sTrainW.weight_mat sTrainW.eps 1 (sTrainW.u, sTrainW.v)).1 :=
  ⟨rfl, ((c9_amended_buffer_updates sEvalW).1 rfl).1, rfl, by decide,
    ((c9_amended_buffer_updates sTrainW).2 rfl (by decide)).1⟩

/-- Auxiliary: with `eps = 1`, the eps-guard branch of `normalize` on a
one-dimensional vector of norm at most `1` divides by `eps = 1` and leaves
the vector unchanged. -/
theorem c9_tn_small (x : Fin 1 → ℝ) (h0 : 0 ≤ x 0) (h1 : x 0 ≤ 1) :
    torchNormalize 1 x = x := by
  funext i
  simp only [torchNormalize, Fin.sum_univ_one]
  rw [Real.sqrt_sq h0, max_eq_right h1, div_one]

/-- Auxiliary: `Whalf.t() @ x` halves the single entry. -/
theorem whalf_t_mulVec (x : Fin 1 → ℝ) :
    Matrix.mulVec Whalf.transpose x = fun _ => x 0 / 2 := by
  funext i
  simp only [Matrix.mulVec, Matrix.dotProduct, Fin.sum_univ_one,
    Matrix.transpose_apply, Whalf]
  ring

/-- Auxiliary: `Whalf @ x` halves the single entry. -/
theorem whalf_mulVec (x : Fin 1 → ℝ) :
    Matrix.mulVec Whalf x = fun _ => x 0 / 2 := by
  funext i
  simp only [Matrix.mulVec, Matrix.dotProduct, Fin.sum_univ_one, Whalf]
  ring

/-- C9 counterexample: the claim says that in training mode the updated `u`
and `v` are written back into the buffers.  On `sCtr`
(`weight_mat = [[1/2]]`, `u = [1]`, `eps = 1`, `n_power_iterations = 2`,
training mode) the buffer `v` after `forward` holds the first iterate `1/2`,
while the final updated `v` the iteration (and `sigma`) uses is `1/8` — the
final vectors are not the persisted ones. -/
theorem c9_counterexample :
    (SpectralNormWeight.forward sCtr).2.v 0 = 1 / 2
    ∧ (snIterates sCtr.weight_mat sCtr.eps sCtr.n_power_iterations (sCtr.u, sCtr.v)).2 0
        = 1 / 8
    ∧ (SpectralNormWeight.forward sCtr).2.v
        ≠ (snIterates sCtr.weight_mat sCtr.eps sCtr.n_power_iterations (sCtr.u, sCtr.v)).2 := by
  have hv1 : torchNormalize (1:ℝ) (Matrix.mulVec Whalf.transpose (fun _ => (1:ℝ)))
      = fun _ => (1/2 : ℝ) := by
    rw [whalf_t_mulVec, c9_tn_small _ (by norm_num) (by norm_num)]
  have hu1 : torchNormalize (1:ℝ) (Matrix.mulVec Whalf (fun _ => (1/2:ℝ)))
      = fun _ => (1/4 : ℝ) := by
    rw [whalf_mulVec, c9_tn_small _ (by norm_num) (by norm_num)]
    funext i
    norm_num
  have hv2 : torchNormalize (1:ℝ) (Matrix.mulVec Whalf.transpose (fun _ => (1/4:ℝ)))
      = fun _ => (1/8 : ℝ) := by
    rw [whalf_t_mulVec, c9_tn_small _ (by norm_num) (by norm_num)]
    funext i
    norm_num
  have hu2 : torchNormalize (1:ℝ) (Matrix.mulVec Whalf (fun _ => (1/8:ℝ)))
      = fun _ => (1/16 : ℝ) := by
    rw [whalf_mulVec, c9_tn_small _ (by norm_num) (by norm_num)]
    funext i
    norm_num
  have hiter1 : snIterates Whalf 1 1 ((fun _ => (1:ℝ)), (fun _ => (0:ℝ)))
      = ((fun _ => (1/4:ℝ)), (fun _ => (1/2:ℝ))) := by
    show (torchNormalize 1 (Matrix.mulVec Whalf
            (torchNormalize 1 (Matrix.mulVec Whalf.transpose (fun _ => (1:ℝ))))),
          torchNormalize 1 (Matrix.mulVec Whalf.transpose (fun _ => (1:ℝ))))
        = ((fun _ => (1/4:ℝ)), (fun _ => (1/2:ℝ)))
    rw [hv1, hu1]
  have hiter2 : snIterates Whalf 1 2 ((fun _ => (1:ℝ)), (fun _ => (0:ℝ)))
      = ((fun _ => (1/16:ℝ)), (fun _ => (1/8:ℝ))) := by
    show snIterates Whalf 1 1
          (torchNormalize 1 (Matrix.mulVec Whalf
            (torchNormalize 1 (Matrix.mulVec Whalf.transpose (fun _ => (1:ℝ))))),
           torchNormalize 1 (Matrix.mulVec Whalf.transpose (fun _ => (1:ℝ))))
        = ((fun _ => (1/16:ℝ)), (fun _ => (1/8:ℝ)))
    rw [hv1, hu1]
    show (torchNormalize 1 (Matrix.mulVec Whalf
            (torchNormalize 1 (Matrix.mulVec Whalf.transpose (fun _ => (1/4:ℝ))))),
          torchNormalize 1 (Matrix.mulVec Whalf.transpose (fun _ => (1/4:ℝ))))
        = ((fun _ => (1/16:ℝ)), (fun _ => (1/8:ℝ)))
    rw [hv2, hu2]
  have hfv : (SpectralNormWeight.forward sCtr).2.v
      = (snIterates Whalf 1 1 ((fun _ => (1:ℝ)), (fun _ => (0:ℝ)))).2 := rfl
  have hit : snIterates sCtr.weight_mat sCtr.eps sCtr.n_power_iterations (sCtr.u, sCtr.v)
      = snIterates Whalf 1 2 ((fun _ => (1:ℝ)), (fun _ => (0:ℝ))) := rfl
  refine ⟨?_, ?_, ?_⟩
  · rw [hfv, hiter1]
  · rw [hit, hiter2]
  · rw [hfv, hiter1, hit, hiter2]
    intro heq
    have h0 := congrFun heq 0
    norm_num at h0
